import Mathlib

/-!
Verification of the AI-guided web-scraping core shared by
`Scripts/scrape_page.py` (Playwright/browser backend) and
`Scripts/scrape_page_http.py` (requests+BeautifulSoup backend).

The Python sources are shallowly embedded: pure string manipulation is
translated directly; DOM access, CSS-selector matching, URL resolution
(`urllib.parse.urljoin` / `urlparse().netloc`) and the language-model
oracle are external collaborators and appear as explicit function
parameters or per-round environment inputs; the wall-clock budget of the
orchestration loops is modelled as a fuel counter.
-/

namespace Scrape

/-! ## Python string helpers -/

/-- ASCII whitespace as recognised by Python's `str.strip()` and the
regex class `\s` (space, tab, newline, carriage return, vertical tab,
form feed). -/
def pyIsSpace (c : Char) : Bool :=
  c == ' ' || c == '\t' || c == '\n' || c == '\r' || c == '\x0b' || c == '\x0c'

/-- Model of Python `str.strip()` on a character list: drop whitespace
from both ends. -/
def pyStripL (cs : List Char) : List Char :=
  ((cs.dropWhile pyIsSpace).reverse.dropWhile pyIsSpace).reverse

/-- Model of Python `str.strip()` on strings. -/
def pyStrip (s : String) : String :=
  String.mk (pyStripL s.toList)

/-- Index of the first occurrence of a character, model of
`str.find(c)` restricted to found/not-found. -/
def firstIdx (cs : List Char) (c : Char) : Option Nat :=
  match cs with
  | [] => none
  | d :: rest =>
      if d == c then some 0
      else match firstIdx rest c with
           | some i => some (i + 1)
           | none => none

/-- Predicate `listStartsWith cs pat` holds when `pat` is a prefix of `cs`
(model of `str.startswith`). -/
def listStartsWith (cs pat : List Char) : Bool :=
  match pat, cs with
  | [], _ => true
  | _ :: _, [] => false
  | p :: ps, c :: rest => c == p && listStartsWith rest ps

/-- Model of Python `str.startswith` on strings. -/
def pyStartsWith (s pat : String) : Bool :=
  listStartsWith s.toList pat.toList

/-- Python slicing: `slice cs a b` is `cs[a:b]`. -/
def slice (cs : List Char) (a b : Nat) : List Char :=
  (cs.drop a).take (b - a)

/-! ## Model of `json.loads`

Python's `json.loads` is the standard-library JSON decoder both scripts
use to validate decoder candidates, to parse the final strategy and to
parse JSON-LD blocks.  It is modelled as a fuel-based recursive-descent
parser.  Number tokens keep their source lexeme so acceptance matches
the JSON grammar exactly; the non-standard `NaN`/`Infinity` extensions
of the Python decoder are not modelled (no claim involves them). -/

inductive Json where
  | null : Json
  | bool (b : Bool) : Json
  | num (lexeme : String) : Json
  | str (value : String) : Json
  | arr (items : List Json) : Json
  | obj (fields : List (String × Json)) : Json

/-- JSON structural whitespace (the only whitespace `json.loads`
skips between tokens). -/
def jsonWs (c : Char) : Bool :=
  c == ' ' || c == '\t' || c == '\n' || c == '\r'

/-- Skip JSON structural whitespace. -/
def skipWs (cs : List Char) : List Char :=
  cs.dropWhile jsonWs

/-- Hex digit value, if any (code points 48-57 are the digits,
97-102 lowercase a-f, 65-70 uppercase A-F). -/
def hexVal (c : Char) : Option Nat :=
  let n := c.toNat
  if 48 ≤ n && n ≤ 57 then some (n - 48)
  else if 97 ≤ n && n ≤ 102 then some (n - 87)
  else if 65 ≤ n && n ≤ 70 then some (n - 55)
  else none

/-- Parse exactly four hex digits into a number. -/
def parse4Hex (cs : List Char) : Option (Nat × List Char) :=
  match cs with
  | a :: b :: c :: d :: rest =>
      match hexVal a, hexVal b, hexVal c, hexVal d with
      | some x, some y, some z, some w =>
          some (x * 4096 + y * 256 + z * 16 + w, rest)
      | _, _, _, _ => none
  | _ => none

/-- Parse the body of a JSON string literal (after the opening quote),
accumulating characters until the closing quote; rejects raw control
characters and malformed escapes like `json.loads` does.  Lone
surrogates from `\uXXXX` escapes fall back to `Char.ofNat`'s default
(the claims never exercise them). -/
def parseJStr (fuel : Nat) (cs : List Char) (acc : List Char) : Option (String × List Char) :=
  match fuel, cs with
  | 0, _ => none
  | _, [] => none
  | f + 1, c :: rest =>
      if c == '"' then some (String.mk acc.reverse, rest)
      else if c == '\\' then
        match rest with
        | [] => none
        | e :: rest2 =>
            if e == '"' then parseJStr f rest2 ('"' :: acc)
            else if e == '\\' then parseJStr f rest2 ('\\' :: acc)
            else if e == '/' then parseJStr f rest2 ('/' :: acc)
            else if e == 'b' then parseJStr f rest2 ('\x08' :: acc)
            else if e == 'f' then parseJStr f rest2 ('\x0c' :: acc)
            else if e == 'n' then parseJStr f rest2 ('\n' :: acc)
            else if e == 'r' then parseJStr f rest2 ('\r' :: acc)
            else if e == 't' then parseJStr f rest2 ('\t' :: acc)
            else if e == 'u' then
              match parse4Hex rest2 with
              | none => none
              | some (n, rest3) =>
                  if 55296 ≤ n && n < 56320 then
                    match rest3 with
                    | '\\' :: 'u' :: rest4 =>
                        match parse4Hex rest4 with
                        | some (m, rest5) =>
                            if 56320 ≤ m && m < 57344 then
                              parseJStr f rest5
                                (Char.ofNat ((n - 55296) * 1024 + (m - 56320) + 65536) :: acc)
                            else parseJStr f rest5 (Char.ofNat m :: Char.ofNat n :: acc)
                        | none => none
                    | _ => parseJStr f rest3 (Char.ofNat n :: acc)
                  else parseJStr f rest3 (Char.ofNat n :: acc)
            else none
      else if c.toNat < 0x20 then none
      else parseJStr f rest (c :: acc)

/-- Decimal digit test (code points 48-57). -/
def isDigit (c : Char) : Bool :=
  48 ≤ c.toNat && c.toNat ≤ 57

/-- Parse a JSON number token starting at `cs`, returning its lexeme.
Grammar: `-? (0 | [1-9][0-9]*) (\.[0-9]+)? ([eE][+-]?[0-9]+)?`. -/
def parseJNum (cs : List Char) : Option (String × List Char) :=
  let sgn : List Char := if cs.headD 'x' == '-' then ['-'] else []
  let cs1 : List Char := if cs.headD 'x' == '-' then cs.tail else cs
  match cs1 with
  | [] => none
  | d :: _ =>
      if !isDigit d then none
      else
        let intPart := cs1.takeWhile isDigit
        let cs2 := cs1.dropWhile isDigit
        if intPart.length > 1 && intPart.headD '0' == '0' then none
        else
          let (fracPart, cs3) :=
            match cs2 with
            | '.' :: rest =>
                let ds := rest.takeWhile isDigit
                if ds.isEmpty then (none, cs2)
                else (some ('.' :: ds), rest.dropWhile isDigit)
            | _ => (none, cs2)
          match fracPart, cs2 with
          | none, '.' :: _ => none
          | _, _ =>
            let (expPart, cs4) :=
              match cs3 with
              | e :: rest =>
                  if e == 'e' || e == 'E' then
                    match rest with
                    | s :: rest2 =>
                        if s == '+' || s == '-' then
                          let ds := rest2.takeWhile isDigit
                          if ds.isEmpty then (none, cs3)
                          else (some (e :: s :: ds), rest2.dropWhile isDigit)
                        else
                          let ds := rest.takeWhile isDigit
                          if ds.isEmpty then (none, cs3)
                          else (some (e :: ds), rest.dropWhile isDigit)
                    | [] => (none, cs3)
                  else (none, cs3)
              | [] => (none, cs3)
            some (String.mk (sgn ++ intPart ++ fracPart.getD [] ++ expPart.getD []), cs4)

mutual

/-- Parse one JSON value at the head of `cs` (leading whitespace
allowed), fuel-bounded. -/
def parseJVal (fuel : Nat) (cs : List Char) : Option (Json × List Char) :=
  match fuel with
  | 0 => none
  | f + 1 =>
      let cs := skipWs cs
      match cs with
      | [] => none
      | c :: rest =>
          if c == 'n' then
            if listStartsWith rest ['u', 'l', 'l'] then some (Json.null, rest.drop 3) else none
          else if c == 't' then
            if listStartsWith rest ['r', 'u', 'e'] then some (Json.bool true, rest.drop 3) else none
          else if c == 'f' then
            if listStartsWith rest ['a', 'l', 's', 'e'] then some (Json.bool false, rest.drop 4) else none
          else if c == '"' then
            match parseJStr (rest.length + 1) rest [] with
            | some (s, rest2) => some (Json.str s, rest2)
            | none => none
          else if c == '[' then
            let rest2 := skipWs rest
            match rest2 with
            | ']' :: rest3 => some (Json.arr [], rest3)
            | _ =>
                match parseJArrElems f rest2 with
                | some (vs, rest3) => some (Json.arr vs, rest3)
                | none => none
          else if c == '\x7b' then
            let rest2 := skipWs rest
            match rest2 with
            | '\x7d' :: rest3 => some (Json.obj [], rest3)
            | _ =>
                match parseJObjMembers f rest2 with
                | some (kvs, rest3) => some (Json.obj kvs, rest3)
                | none => none
          else if c == '-' || isDigit c then
            match parseJNum cs with
            | some (lex, rest2) => some (Json.num lex, rest2)
            | none => none
          else none

/-- Parse the comma-separated elements of a non-empty JSON array,
up to and including the closing bracket. -/
def parseJArrElems (fuel : Nat) (cs : List Char) : Option (List Json × List Char) :=
  match fuel with
  | 0 => none
  | f + 1 =>
      match parseJVal f cs with
      | none => none
      | some (v, rest) =>
          let rest := skipWs rest
          match rest with
          | ']' :: rest2 => some ([v], rest2)
          | ',' :: rest2 =>
              match parseJArrElems f rest2 with
              | some (vs, rest3) => some (v :: vs, rest3)
              | none => none
          | _ => none

/-- Parse the comma-separated members of a non-empty JSON object,
up to and including the closing brace. -/
def parseJObjMembers (fuel : Nat) (cs : List Char) : Option (List (String × Json) × List Char) :=
  match fuel with
  | 0 => none
  | f + 1 =>
      let cs := skipWs cs
      match cs with
      | '"' :: rest =>
          match parseJStr (rest.length + 1) rest [] with
          | none => none
          | some (k, rest2) =>
              let rest2 := skipWs rest2
              match rest2 with
              | ':' :: rest3 =>
                  match parseJVal f rest3 with
                  | none => none
                  | some (v, rest4) =>
                      let rest4 := skipWs rest4
                      match rest4 with
                      | '\x7d' :: rest5 => some ([(k, v)], rest5)
                      | ',' :: rest5 =>
                          match parseJObjMembers f rest5 with
                          | some (kvs, rest6) => some ((k, v) :: kvs, rest6)
                          | none => none
                      | _ => none
              | _ => none
      | _ => none

end

/-- Model of `json.loads`: parse a complete JSON document; trailing
non-whitespace (Python's `Extra data` error) rejects. -/
def jsonParse (s : String) : Option Json :=
  let cs := s.toList
  match parseJVal (cs.length + 1) cs with
  | none => none
  | some (v, rest) =>
      if (skipWs rest).isEmpty then some v else none

/-! ## Strategy Decoder: `extract_json_from_text`

Model of `extract_json_from_text` (identical in both backends).
Stage 1 extracts the interior of the first fenced block matched by the
regex `(three backticks)(?:json)?\s*\n?(.*?)\n?(three backticks)` with
`re.DOTALL`; stage 2 scans from the first opening brace/bracket
tracking nesting depth while ignoring bracket characters inside quoted
strings. -/

/-- The triple-backtick fence marker of the stage-1 regex. -/
def fenceMarker : List Char := "```".toList

/-- Index of the first occurrence of `pat` as a sublist of `cs`. -/
def findSub (cs pat : List Char) : Option Nat :=
  match cs with
  | [] => if pat.isEmpty then some 0 else none
  | _ :: rest =>
      if listStartsWith cs pat then some 0
      else match findSub rest pat with
           | some i => some (i + 1)
           | none => none

/-- Find the position ending the lazy group `(.*?)` of the stage-1
regex: the first index where the continuation `\n?` + fence matches
(both alternatives end the group at the same index). -/
def findCloseAux (cs : List Char) (i : Nat) : Option Nat :=
  match cs with
  | [] => none
  | c :: rest =>
      if c == '\n' && listStartsWith rest fenceMarker then some i
      else if listStartsWith (c :: rest) fenceMarker then some i
      else findCloseAux rest (i + 1)

/-- Start index of the lazy group of the stage-1 regex, given the
index `i` of the opening fence: skip the fence, the optional `json`
tag, and the maximal whitespace run matched by the greedy `\s*` (the
following `\n?` then matches empty). -/
def fenceGroupStart (cs : List Char) (i : Nat) : Nat :=
  let j := i + 3
  let j2 := if listStartsWith (cs.drop j) ("json".toList) then j + 4 else j
  j2 + ((cs.drop j2).takeWhile pyIsSpace).length

/-- Stage 1 of the decoder: the stripped interior of the first fenced
block, when the regex matches. -/
def fencedCandidate (cs : List Char) : Option (List Char) :=
  match findSub cs fenceMarker with
  | none => none
  | some i =>
      match findCloseAux (cs.drop (fenceGroupStart cs i)) 0 with
      | none => none
      | some p =>
          some (pyStripL (slice cs (fenceGroupStart cs i) (fenceGroupStart cs i + p)))

/-- State of the stage-2 depth scan: bracket nesting depth, the
in-string flag, and the escape-next flag. -/
structure ScanSt where
  depth : Int
  inString : Bool
  escapeNext : Bool

/-- One character step of the stage-2 scan; the returned flag is true
when the matching closing character brought the depth back to zero. -/
def scanStep (oc cc : Char) (st : ScanSt) (c : Char) : ScanSt × Bool :=
  if st.escapeNext then ({ st with escapeNext := false }, false)
  else if c == '\\' && st.inString then ({ st with escapeNext := true }, false)
  else if c == '"' then ({ st with inString := !st.inString }, false)
  else if st.inString then (st, false)
  else if c == oc then ({ st with depth := st.depth + 1 }, false)
  else if c == cc then
    ({ st with depth := st.depth - 1 }, st.depth - 1 == 0)
  else (st, false)

/-- Run the stage-2 scan over `cs`, returning the relative index of
the closing character, if the depth returns to zero. -/
def scanEndAux (oc cc : Char) (cs : List Char) (i : Nat) (st : ScanSt) : Option Nat :=
  match cs with
  | [] => none
  | c :: rest =>
      let sr := scanStep oc cc st c
      if sr.2 then some i else scanEndAux oc cc rest (i + 1) sr.1

/-- Stage 2 body once the start position and bracket pair are fixed:
scan for the matching close, slice, and accept only if `json.loads`
succeeds on the slice. -/
def stage2From (cs : List Char) (startPos : Nat) (oc cc : Char) : Option String :=
  match scanEndAux oc cc (cs.drop startPos) 0 ⟨0, false, false⟩ with
  | none => none
  | some rel =>
      if startPos + rel > startPos then
        if (jsonParse (String.mk (slice cs startPos (startPos + rel + 1)))).isSome then
          some (String.mk (slice cs startPos (startPos + rel + 1)))
        else none
      else none

/-- Stage 2 of the decoder: pick the earlier of the first `{` and the
first `[`, scan for its matching close, parse the slice. -/
def stage2 (cs : List Char) : Option String :=
  match firstIdx cs '\x7b', firstIdx cs '[' with
  | none, none => none
  | some b, none => stage2From cs b '\x7b' '\x7d'
  | none, some k => stage2From cs k '[' ']'
  | some b, some k =>
      if b < k then stage2From cs b '\x7b' '\x7d'
      else stage2From cs k '[' ']'

/-- Model of `extract_json_from_text`: try the fenced block first; on
regex failure or parse failure of its interior, fall back to the
depth-scan stage; return `none` if both fail. -/
def extract_json_from_text (text : String) : Option String :=
  match fencedCandidate text.toList with
  | some cand =>
      if (jsonParse (String.mk cand)).isSome then some (String.mk cand)
      else stage2 text.toList
  | none => stage2 text.toList

/-! ## DOM model

The Page Driver (Playwright page / BeautifulSoup tree) is an external
collaborator.  A document is modelled flatly as a list of elements in
document order, each carrying its tree position as a path of child
indices; ancestor/descendant relations are path-prefix relations.
CSS-selector matching is delegated to the driver and appears as an
explicit parameter `mat : String → NodeData → Bool` (whether a node
matches a selector string). -/

structure NodeData where
  tag : String
  attrs : List (String × String)
  text : String
  visible : Bool
deriving DecidableEq

structure Elem where
  path : List Nat
  data : NodeData
deriving DecidableEq

/-- Attribute lookup: `None` when absent (Playwright
`get_attribute`); use `.getD ""` for BeautifulSoup's `get(a, "")`. -/
def getAttr (n : NodeData) (a : String) : Option String :=
  (n.attrs.find? (fun p => p.1 == a)).map (·.2)

/-- Python truthiness on an optional string: `None` and `""` are
falsy. -/
def truthyOpt (s : Option String) : Option String :=
  match s with
  | some t => if t == "" then none else some t
  | none => none

/-- Holds when `p` is the tree position of a proper ancestor of the node at
position `q`. -/
def pathAnc (p q : List Nat) : Bool :=
  p.isPrefixOf q && p != q

/-- All proper ancestors of `e` present in the document. -/
def ancestorsOf (doc : List Elem) (e : Elem) : List Elem :=
  doc.filter (fun a => pathAnc a.path e.path)

/-- All proper descendants of `e` present in the document. -/
def descendantsOf (doc : List Elem) (e : Elem) : List Elem :=
  doc.filter (fun d => pathAnc e.path d.path)

/-- Model of `query_selector_all` / `soup.select`: every element matching the
selector, in document order. -/
def queryAll (doc : List Elem) (mat : String → NodeData → Bool) (sel : String) : List Elem :=
  doc.filter (fun x => mat sel x.data)

/-- Model of `query_selector` / `select_one` on the document: first match. -/
def queryOne (doc : List Elem) (mat : String → NodeData → Bool) (sel : String) : Option Elem :=
  (queryAll doc mat sel).head?

/-- Model of `element.query_selector` / `element.select_one`: first matching
proper descendant of `e`. -/
def queryWithin (doc : List Elem) (mat : String → NodeData → Bool) (e : Elem) (sel : String) :
    Option Elem :=
  ((descendantsOf doc e).filter (fun x => mat sel x.data)).head?

namespace Browser

/-- Model of `should_ignore` of `scrape_page.py`: for each ignore selector the
driver evaluates `el.closest(sel) !== null`, an ancestor-or-self
match. -/
def should_ignore (doc : List Elem) (mat : String → NodeData → Bool)
    (e : Elem) (ignore_selectors : List String) : Bool :=
  ignore_selectors.any fun sel =>
    mat sel e.data || (ancestorsOf doc e).any (fun a => mat sel a.data)

end Browser

namespace Http

/-- Model of `should_ignore` of `scrape_page_http.py`, translated clause by
clause from its loop over `[element] + element.parents`:
`parent.select_one(selector) is parent` (a BeautifulSoup `select_one`
searches proper descendants, so in the path model the first match has
a strictly longer path and is never `parent` itself), then
`parent.name == selector`, then `parent in parent.parent.select(selector)`
(every tag has a parent in BeautifulSoup — the document object at the
top — and `parent` lies among that parent's descendants, so the
membership holds exactly when `parent` itself matches the selector). -/
def should_ignore (doc : List Elem) (mat : String → NodeData → Bool)
    (e : Elem) (ignore_selectors : List String) : Bool :=
  ignore_selectors.any fun sel =>
    (e :: ancestorsOf doc e).any fun p =>
      (match ((descendantsOf doc p).filter (fun q => mat sel q.data)).head? with
       | some q => decide (q = p)
       | none => false)
      || p.data.tag == sel
      || mat sel p.data

end Http

/-! ## Strategy document and PageResult -/

/-- One entry of `extraction_fields`; `name`/`selector` carry the
`field.get(key, "")` result, `attribute` the `field.get("attribute")`
result. -/
structure ExtractionField where
  name : String
  selector : String
  attrName : Option String
deriving DecidableEq

/-- The decoded strategy document with its optional keys flattened:
`content_selectors.items`, `content_selectors.main_container`,
`pagination.next_selector`, `ignore_selectors`, `extraction_fields`,
`page_type`. -/
structure Strategy where
  page_type : Option String
  items : Option String
  main_container : Option String
  next_selector : Option String
  ignore_selectors : List String
  extraction_fields : List ExtractionField

/-- A field value inside an extracted record: scalar, or array when
the global branch matched several elements. -/
inductive FVal where
  | s (v : String) : FVal
  | arr (vs : List String) : FVal
deriving DecidableEq

/-- One extracted content record: a Python dict in insertion order. -/
abbrev ContentRecord := List (String × FVal)

/-- Python dict assignment: replace the value of an existing key in
place, otherwise append. -/
def dictUpsert {α : Type} : List (String × α) → String → α → List (String × α)
  | [], k, v => [(k, v)]
  | (k0, v0) :: rest, k, v =>
      if k0 == k then (k0, v) :: rest else (k0, v0) :: dictUpsert rest k v

/-- Field `structured_data`: exactly one parsed JSON-LD block is stored as
the object itself, several as an array. -/
inductive SData where
  | one (j : Json) : SData
  | many (js : List Json) : SData

/-- The per-page result dict built by `extract_with_strategy`. -/
structure PageData where
  url : String
  title : String
  page_type : String
  metadata : List (String × String)
  structured_data : Option SData
  content : List ContentRecord
  images : List (String × String)
  links : List (String × String)
  page_number : Nat

/-! ## Extraction Engine

The engine is written once, parameterized by the backend's
`should_ignore` test `ign`; the two Python sources duplicate this
logic verbatim up to the driver API. -/

/-- Value of one extraction field at an element:
`el.get_attribute(attribute) or ""` when an attribute is requested
(truthily), else the stripped inner text. -/
def fieldValue (el : Elem) (attrName : Option String) : String :=
  match truthyOpt attrName with
  | some a => (truthyOpt (getAttr el.data a)).getD ""
  | none => pyStrip el.data.text

/-- The `name or property or ""` attribute chain of a meta tag. -/
def metaName (n : NodeData) : String :=
  match truthyOpt (getAttr n "name") with
  | some s => s
  | none =>
      match truthyOpt (getAttr n "property") with
      | some s => s
      | none => ""

/-- Model of `extract_metadata`: every meta tag with truthy name-or-property
and content becomes one key/value pair. -/
def extract_metadata (doc : List Elem) : List (String × String) :=
  (doc.filter (fun e => e.data.tag == "meta")).foldl
    (fun md e =>
      let n := metaName e.data
      let c := (truthyOpt (getAttr e.data "content")).getD ""
      if n != "" && c != "" then dictUpsert md n c else md)
    []

/-- Model of `extract_json_ld`: parse every JSON-LD script block independently,
skipping failures; one success is stored alone, several as a list. -/
def extract_json_ld (doc : List Elem) : Option SData :=
  match (doc.filter (fun e =>
      e.data.tag == "script" && (getAttr e.data "type").getD "" == "application/ld+json")).filterMap
      (fun e => if e.data.text != "" then jsonParse e.data.text else none) with
  | [] => none
  | [j] => some (SData.one j)
  | js => some (SData.many js)

/-- The items a list-page extraction iterates: elements matching the
items selector whose `should_ignore` test is false (the source skips
ignored items with `continue`). -/
def itemElems (doc : List Elem) (mat : String → NodeData → Bool)
    (ign : Elem → List String → Bool) (items_selector : String)
    (ignore : List String) : List Elem :=
  (queryAll doc mat items_selector).filter (fun e => !ign e ignore)

/-- Build the record of one list item from the extraction fields. -/
def itemRecord (doc : List Elem) (mat : String → NodeData → Bool)
    (item : Elem) (fields : List ExtractionField) : ContentRecord :=
  fields.foldl
    (fun r f =>
      if f.name == "" || f.selector == "" then r
      else
        match queryWithin doc mat item f.selector with
        | some el =>
            let v := fieldValue el f.attrName
            if v != "" then dictUpsert r f.name (FVal.s v) else r
        | none => r)
    []

/-- Model of `extract_list_items`: one record per non-ignored item; an item
with no field values falls back to its whole text when that text has
at least 3 characters. -/
def extract_list_items (doc : List Elem) (mat : String → NodeData → Bool)
    (ign : Elem → List String → Bool) (items_selector : String)
    (fields : List ExtractionField) (ignore : List String) : List ContentRecord :=
  (itemElems doc mat ign items_selector ignore).foldl
    (fun acc item =>
      let item_data := itemRecord doc mat item fields
      if item_data.isEmpty then
        if pyStrip item.data.text != "" && (pyStrip item.data.text).length ≥ 3 then
          acc ++ [[("text", FVal.s (pyStrip item.data.text))]]
        else acc
      else acc ++ [item_data])
    []

/-- The non-ignored elements matching one field selector in the
global branch. -/
def fieldElems (doc : List Elem) (mat : String → NodeData → Bool)
    (ign : Elem → List String → Bool) (sel : String) (ignore : List String) : List Elem :=
  (queryAll doc mat sel).filter (fun e => !ign e ignore)

/-- Model of `extract_fields_global`: evaluate every field against the whole
document; one matching element yields a scalar, several an array; at
most one record results. -/
def extract_fields_global (doc : List Elem) (mat : String → NodeData → Bool)
    (ign : Elem → List String → Bool) (fields : List ExtractionField)
    (ignore : List String) : List ContentRecord :=
  match fields.foldl
    (fun r f =>
      if f.name == "" || f.selector == "" then r
      else
        match (fieldElems doc mat ign f.selector ignore).filterMap
            (fun el => if fieldValue el f.attrName != "" then some (fieldValue el f.attrName) else none) with
        | [] => r
        | [v] => dictUpsert r f.name (FVal.s v)
        | vs => dictUpsert r f.name (FVal.arr vs))
    [] with
  | [] => []
  | r => [r]

/-- Model of `extract_from_container`: locate the main container (falling back
to the global branch when missing), build exactly one record from the
fields (a field element hit by `should_ignore` is skipped), else fall
back to the container's whole text. -/
def extract_from_container (doc : List Elem) (mat : String → NodeData → Bool)
    (ign : Elem → List String → Bool) (container_selector : String)
    (fields : List ExtractionField) (ignore : List String) : List ContentRecord :=
  match queryOne doc mat container_selector with
  | none => extract_fields_global doc mat ign fields ignore
  | some container =>
      match fields.foldl
        (fun r f =>
          if f.name == "" || f.selector == "" then r
          else
            match queryWithin doc mat container f.selector with
            | some el =>
                if ign el ignore then r
                else
                  if fieldValue el f.attrName != "" then
                    dictUpsert r f.name (FVal.s (fieldValue el f.attrName))
                  else r
            | none => r)
        [] with
      | [] =>
          if pyStrip container.data.text != "" then
            [[("text", FVal.s (pyStrip container.data.text))]]
          else []
      | r => [r]

/-- The image elements the engine iterates: `img` tags carrying a
`src`, minus ignored ones. -/
def imageElems (doc : List Elem) (ign : Elem → List String → Bool)
    (ignore : List String) : List Elem :=
  (doc.filter (fun e => e.data.tag == "img" && (getAttr e.data "src").isSome)).filter
    (fun e => !ign e ignore)

/-- Model of `extract_images`: skip data URIs, resolve against the page URL
(`resolve` models `urljoin` / `new URL`), de-duplicate by resolved
URL, keep alt text. -/
def extract_images (doc : List Elem) (ign : Elem → List String → Bool)
    (resolve : String → String → String) (url : String) (ignore : List String) :
    List (String × String) :=
  (imageElems doc ign ignore).foldl
    (fun acc img =>
      let src0 := (getAttr img.data "src").getD ""
      if src0 == "" || pyStartsWith src0 "data:" then acc
      else
        if acc.any (fun p => p.1 == resolve url src0) then acc
        else acc ++ [(resolve url src0, (getAttr img.data "alt").getD "")])
    []

/-- The anchor elements the engine iterates: `a` tags carrying an
`href`, minus ignored ones. -/
def linkElems (doc : List Elem) (ign : Elem → List String → Bool)
    (ignore : List String) : List Elem :=
  (doc.filter (fun e => e.data.tag == "a" && (getAttr e.data "href").isSome)).filter
    (fun e => !ign e ignore)

/-- Model of `extract_links`: reject fragment-only and `javascript:` hrefs,
resolve, require non-empty visible text, de-duplicate by URL. -/
def extract_links (doc : List Elem) (ign : Elem → List String → Bool)
    (resolve : String → String → String) (url : String) (ignore : List String) :
    List (String × String) :=
  (linkElems doc ign ignore).foldl
    (fun acc a =>
      let href0 := (getAttr a.data "href").getD ""
      if href0 == "" || pyStartsWith href0 "#" || pyStartsWith href0 "javascript:" then acc
      else
        if pyStrip a.data.text == "" then acc
        else if acc.any (fun p => p.1 == resolve url href0) then acc
        else acc ++ [(resolve url href0, pyStrip a.data.text)])
    []

/-- The main-content fallback chain of `extract_with_strategy`:
items branch, else container branch, else global branch (exactly one
branch runs, selected by Python truthiness of the selectors). -/
def contentOf (doc : List Elem) (mat : String → NodeData → Bool)
    (ign : Elem → List String → Bool) (strategy : Strategy) : List ContentRecord :=
  match truthyOpt strategy.items with
  | some isel =>
      extract_list_items doc mat ign isel strategy.extraction_fields strategy.ignore_selectors
  | none =>
      match truthyOpt strategy.main_container with
      | some csel =>
          extract_from_container doc mat ign csel strategy.extraction_fields
            strategy.ignore_selectors
      | none =>
          extract_fields_global doc mat ign strategy.extraction_fields
            strategy.ignore_selectors

/-- Model of `extract_with_strategy`: build the PageResult and raise the
content-not-found failure exactly when the main-content branch yields
zero records. -/
def extract_with_strategy (doc : List Elem) (mat : String → NodeData → Bool)
    (ign : Elem → List String → Bool) (resolve : String → String → String)
    (url : String) (strategy : Strategy) (title : String) : Except String PageData :=
  if (contentOf doc mat ign strategy).isEmpty then
    Except.error "no content found by strategy-based extraction"
  else
    Except.ok
      { url := url
        title := title
        page_type := strategy.page_type.getD "generic"
        metadata := extract_metadata doc
        structured_data := extract_json_ld doc
        content := contentOf doc mat ign strategy
        images := extract_images doc ign resolve url strategy.ignore_selectors
        links := extract_links doc ign resolve url strategy.ignore_selectors
        page_number := 0 }

/-! ## Pagination Controller -/

namespace Browser

/-- Model of `find_next_page_with_strategy` of the browser backend: requires a
truthy `next_selector`, a visible matched element, a truthy href that
is neither fragment-only nor a `javascript:` pseudo-link, and a
resolved URL on the same host (`resolve` models `urljoin`, `host`
models `urlparse(.).netloc`). -/
def find_next_page_with_strategy (doc : List Elem) (mat : String → NodeData → Bool)
    (resolve : String → String → String) (host : String → String)
    (current_url : String) (strategy : Strategy) : Option String :=
  match truthyOpt strategy.next_selector with
  | none => none
  | some sel =>
      match queryOne doc mat sel with
      | none => none
      | some el =>
          if el.data.visible then
            match getAttr el.data "href" with
            | none => none
            | some href =>
                if href != "" && !pyStartsWith href "#" && !pyStartsWith href "javascript:" then
                  if host (resolve current_url href) == host current_url then
                    some (resolve current_url href)
                  else none
                else none
          else none

end Browser

namespace Http

/-- Model of `find_next_page_with_strategy` of the HTTP backend: as the
browser version but with no visibility test (`el.get("href", "")`
defaults the missing attribute to the empty, falsy string). -/
def find_next_page_with_strategy (doc : List Elem) (mat : String → NodeData → Bool)
    (resolve : String → String → String) (host : String → String)
    (current_url : String) (strategy : Strategy) : Option String :=
  match truthyOpt strategy.next_selector with
  | none => none
  | some sel =>
      match queryOne doc mat sel with
      | none => none
      | some el =>
          if (getAttr el.data "href").getD "" != ""
              && !pyStartsWith ((getAttr el.data "href").getD "") "#"
              && !pyStartsWith ((getAttr el.data "href").getD "") "javascript:" then
            if host (resolve current_url ((getAttr el.data "href").getD ""))
                == host current_url then
              some (resolve current_url ((getAttr el.data "href").getD ""))
            else none
          else none

end Http

/-! ## Concrete fixtures used by witnesses -/

/-- A concrete selector-matching function for witnesses: a selector
string matches a node exactly when it equals the node's tag. -/
def tagMat : String → NodeData → Bool :=
  fun sel n => n.tag == sel

/-- An ignored `aside` ancestor node. -/
def ndAside : NodeData := ⟨"aside", [], "", true⟩

/-- An intermediate wrapper node. -/
def ndDiv : NodeData := ⟨"div", [], "", true⟩

/-- A leaf image node. -/
def ndImg : NodeData := ⟨"img", [("src", "/a.png")], "", true⟩

/-- A four-element chain: an `aside`, two `div` wrappers, and an
`img` leaf three levels below the `aside`. -/
def wDoc : List Elem :=
  [⟨[0], ndAside⟩, ⟨[0, 0], ndDiv⟩, ⟨[0, 0, 0], ndDiv⟩, ⟨[0, 0, 0, 0], ndImg⟩]

/-- The ignored ancestor of the chain. -/
def wAside : Elem := ⟨[0], ndAside⟩

/-- The leaf of the chain. -/
def wLeaf : Elem := ⟨[0, 0, 0, 0], ndImg⟩

/-- An article node with fallback text. -/
def ndArticle : NodeData := ⟨"article", [], "hello world", true⟩

/-- A one-article document. -/
def wDoc2 : List Elem := [⟨[0], ndArticle⟩]

/-- A strategy selecting `article` items with no fields. -/
def wStratItems : Strategy := ⟨none, some "article", none, none, [], []⟩

/-- The PageResult the engine produces from `wDoc2` under
`wStratItems`. -/
def wPageData : PageData :=
  { url := "u"
    title := "t"
    page_type := "generic"
    metadata := []
    structured_data := none
    content := [[("text", FVal.s "hello world")]]
    images := []
    links := []
    page_number := 0 }

/-! ## Orchestration Loop

The loops of `main` are embedded with the collaborator calls
(navigation, oracle round-trips, extraction, pagination detection)
abstracted as per-page / per-round environment inputs, and the
wall-clock budget (`remaining_time()` checks) as boolean inputs and
fuel.  The hard `max_pages = 100` page cap is modelled as the page
fuel. -/

/-- URL normalization of the orchestration loops:
`current_url.split("?")[0].split("#")[0].rstrip("/")`. -/
def normalizeUrl (u : String) : String :=
  String.mk
    ((((u.toList.takeWhile (fun c => c != '?')).takeWhile (fun c => c != '#')).reverse.dropWhile
      (fun c => c == '/')).reverse)

/-- Input of one extraction round of the browser backend:
the number of successful load-more clicks, and the outcome of
`extract_with_strategy` (`none` models the zero-content
`RuntimeError`). -/
structure RoundIn where
  clicks : Nat
  extract : Option PageData

/-- The round loop body of `scrape_page.py`'s `main` for one page:
round 1 stores its result unconditionally (a zero-content failure
re-raises); a later round stores only a strictly larger record count
and otherwise breaks keeping the prior result; a round with zero
clicks breaks after storing.  The periodic strategy re-consultation
only replaces the strategy feeding the abstract extraction outcomes
and needs no separate state here.  `fuel` models the
`remaining_time() > 30` loop condition. -/
def roundGo (env : Nat → RoundIn) (pageNum : Nat) :
    Nat → Nat → Nat → Option PageData → Except Unit (Option PageData)
  | 0, _, _, stored => Except.ok stored
  | f + 1, r, prev, stored =>
      match (env r).extract with
      | none => if r == 1 then Except.error () else Except.ok stored
      | some pd =>
          if r == 1 then
            if (env r).clicks == 0 then Except.ok (some { pd with page_number := pageNum })
            else roundGo env pageNum f (r + 1) pd.content.length
              (some { pd with page_number := pageNum })
          else if pd.content.length > prev then
            if (env r).clicks == 0 then Except.ok (some { pd with page_number := pageNum })
            else roundGo env pageNum f (r + 1) pd.content.length
              (some { pd with page_number := pageNum })
          else Except.ok stored

/-- The full round loop of one page, started at round 1 with no
stored result. -/
def roundLoop (env : Nat → RoundIn) (fuel pageNum : Nat) : Except Unit (Option PageData) :=
  roundGo env pageNum fuel 1 0 none

/-- Environment of the browser-backend page loop: the time check
before each page, whether the page-1 strategy generation succeeds,
the per-page per-round extraction inputs, the per-page round-loop
budget, and the pagination-controller outcome after each page. -/
structure CrawlEnv where
  timeOk : Nat → Bool
  strategyOk : Bool
  rounds : Nat → Nat → RoundIn
  roundFuel : Nat → Nat
  next : Nat → Option String

/-- The page loop of `scrape_page.py`'s `main`.  The fuel is the
remaining page allowance (`page_num < max_pages`); a `RuntimeError`
escaping the round loop (zero content on round 1 of any page)
propagates to the outer handler, which exits without writing JSON
(`Except.error`); every other exit writes the accumulated pages. -/
def pageGo (env : CrawlEnv) :
    Nat → Option String → Nat → List String → List PageData →
    Except Unit (List PageData × List String)
  | _, none, _, visited, acc => Except.ok (acc, visited)
  | 0, some _, _, visited, acc => Except.ok (acc, visited)
  | f + 1, some u, pn, visited, acc =>
      if env.timeOk pn = false then Except.ok (acc, visited)
      else if visited.contains (normalizeUrl u) then Except.ok (acc, visited)
      else if pn + 1 == 1 && !env.strategyOk then Except.error ()
      else
        match roundLoop (env.rounds (pn + 1)) (env.roundFuel (pn + 1)) (pn + 1) with
        | Except.error () => Except.error ()
        | Except.ok stored =>
            match env.next (pn + 1) with
            | some nu =>
                if nu != u then
                  pageGo env f (some nu) (pn + 1) (visited ++ [normalizeUrl u])
                    (acc ++ stored.toList)
                else
                  pageGo env f none (pn + 1) (visited ++ [normalizeUrl u])
                    (acc ++ stored.toList)
            | none =>
                pageGo env f none (pn + 1) (visited ++ [normalizeUrl u])
                  (acc ++ stored.toList)

/-- The browser-backend crawl from a start URL, with the
`max_pages = 100` cap as initial fuel. -/
def browserCrawl (env : CrawlEnv) (url : String) :
    Except Unit (List PageData × List String) :=
  pageGo env 100 (some url) 0 [] []

/-- Environment of the HTTP-backend page loop: time check, fetch
outcome, page-1 strategy generation outcome, per-page extraction
outcome (`none` models the zero-content `RuntimeError`), and the
pagination-controller outcome. -/
structure HttpEnv where
  timeOk : Nat → Bool
  fetchOk : Nat → Bool
  strategyOk : Bool
  extract : Nat → Option PageData
  next : Nat → Option String

/-- The page loop of `scrape_page_http.py`'s `main`: one extraction
per page; a fetch error or zero-content extraction re-raises only on
page 1 and otherwise breaks out of the loop, keeping the earlier
pages for the JSON output. -/
def httpGo (env : HttpEnv) :
    Nat → Option String → Nat → List String → List PageData →
    Except Unit (List PageData × List String)
  | _, none, _, visited, acc => Except.ok (acc, visited)
  | 0, some _, _, visited, acc => Except.ok (acc, visited)
  | f + 1, some u, pn, visited, acc =>
      if env.timeOk pn = false then Except.ok (acc, visited)
      else if visited.contains (normalizeUrl u) then Except.ok (acc, visited)
      else if env.fetchOk (pn + 1) = false then
        if pn + 1 == 1 then Except.error ()
        else Except.ok (acc, visited ++ [normalizeUrl u])
      else if pn + 1 == 1 && !env.strategyOk then Except.error ()
      else
        match env.extract (pn + 1) with
        | none =>
            if pn + 1 == 1 then Except.error ()
            else Except.ok (acc, visited ++ [normalizeUrl u])
        | some pd =>
            match env.next (pn + 1) with
            | some nu =>
                if nu != u then
                  httpGo env f (some nu) (pn + 1) (visited ++ [normalizeUrl u])
                    (acc ++ [{ pd with page_number := pn + 1 }])
                else
                  httpGo env f none (pn + 1) (visited ++ [normalizeUrl u])
                    (acc ++ [{ pd with page_number := pn + 1 }])
            | none =>
                httpGo env f none (pn + 1) (visited ++ [normalizeUrl u])
                  (acc ++ [{ pd with page_number := pn + 1 }])

/-- The HTTP-backend crawl from a start URL. -/
def httpCrawl (env : HttpEnv) (url : String) :
    Except Unit (List PageData × List String) :=
  httpGo env 100 (some url) 0 [] []

/-- The final output document: a lone PageResult with the completion
timestamp added, or the multi-page envelope. -/
inductive CrawlResult where
  | single (p : PageData) (scraped_at : String) : CrawlResult
  | multi (url title : String) (total_pages : Nat) (pages : List PageData)
      (scraped_at : String) : CrawlResult

/-- Output shaping of both `main`s: exactly one collected PageResult
is emitted directly, anything else is wrapped in the envelope whose
`total_pages` is the number of collected PageResults and whose title
is the first page's title (empty when no page was collected). -/
def buildResult (all_pages : List PageData) (url ts : String) : CrawlResult :=
  match all_pages with
  | [p] => CrawlResult.single p ts
  | _ =>
      CrawlResult.multi url ((all_pages.head?.map (fun p => p.title)).getD "")
        all_pages.length all_pages ts

/-! ## Dynamic Content Loader

`click_load_more_buttons` is embedded with each iteration's outcome
abstracted to a pair of booleans: whether any load-more click
succeeded (text patterns, CSS heuristics and the forced-click retry
chain are all inside the Page Driver interaction) and whether the
document height measured after the iteration equals the height
measured before it. -/

/-- The loop of `click_load_more_buttons`: `fuel` is the remaining
`range(max_clicks)` allowance, `i` the iteration index, `tc` the
running click count, `cc` the consecutive no-click no-height-change
count.  Returns the final click count and the number of iterations
executed. -/
def clickGo (env : Nat → Bool × Bool) : Nat → Nat → Nat → Nat → Nat × Nat
  | 0, i, tc, _ => (tc, i)
  | f + 1, i, tc, cc =>
      if (env i).2 && !(env i).1 then
        if cc + 1 ≥ 3 then (tc, i + 1)
        else clickGo env f (i + 1) tc (cc + 1)
      else clickGo env f (i + 1) (if (env i).1 then tc + 1 else tc) 0

/-- Model of `click_load_more_buttons`: run the loop with the iteration cap;
the first component is the returned click count, the second counts
the executed iterations (instrumentation for the termination
statement only). -/
def click_load_more_buttons (env : Nat → Bool × Bool) (max_clicks : Nat) : Nat × Nat :=
  clickGo env max_clicks 0 0 0

/-- The number of iterations in `[i, i+n)` whose outcome includes a
click. -/
def countClicksIn (env : Nat → Bool × Bool) (i n : Nat) : Nat :=
  ((List.range' i n).filter (fun j => (env j).1)).length

/-- An iteration with neither a click nor a height change. -/
def deadIter (env : Nat → Bool × Bool) (i : Nat) : Prop :=
  env i = (false, true)

/-! ## Orchestration fixtures -/

/-- A PageData with no content records. -/
def wPageDataEmpty : PageData := { wPageData with content := [] }

/-- A round environment: round 1 yields one record with one click,
every later round yields zero records with zero clicks. -/
def wRoundEnv : Nat → RoundIn :=
  fun r => if r == 1 then ⟨1, some wPageData⟩ else ⟨0, some wPageDataEmpty⟩

/-- An all-dead loader environment. -/
def wDeadEnv : Nat → Bool × Bool := fun _ => (false, true)

/-! ## Page-loop fixtures -/

/-- A crawl environment that finds nothing anywhere. -/
def wCrawlEnvTrivial : CrawlEnv :=
  ⟨fun _ => true, true, fun _ _ => ⟨0, none⟩, fun _ => 0, fun _ => none⟩

/-- Round inputs for the C1 scenario: page 1 extracts one record with
zero clicks, every later page's extraction finds zero records. -/
def cRounds : Nat → Nat → RoundIn :=
  fun p _ => if p == 1 then ⟨0, some wPageData⟩ else ⟨0, none⟩

/-- Browser crawl environment for the C1 scenario: ample budget,
page 1 succeeds and paginates to a second page whose extraction finds
zero content records. -/
def cBrowserEnv : CrawlEnv :=
  ⟨fun _ => true, true, cRounds, fun _ => 5,
   fun p => if p == 1 then some "https://x.test/b" else none⟩

/-- HTTP crawl environment for the C1 scenario: page 1 succeeds and
paginates to a second page whose extraction finds zero records. -/
def cHttpEnv : HttpEnv :=
  ⟨fun _ => true, fun _ => true, true,
   fun p => if p == 1 then some wPageData else none,
   fun p => if p == 1 then some "https://x.test/b" else none⟩

/-- HTTP crawl environment whose very first extraction finds zero
records. -/
def cHttpEnvFail : HttpEnv :=
  ⟨fun _ => true, fun _ => true, true, fun _ => none, fun _ => none⟩

/-! ## Decoder theorems -/

theorem toList_mk (l : List Char) : (String.mk l).toList = l := rfl

theorem slice_isInfix_self (cs : List Char) (a b : Nat) : slice cs a b <:+: cs :=
  List.IsInfix.trans
    (List.IsPrefix.isInfix ( List.take_prefix (b - a) (cs.drop a)))
    (List.IsSuffix.isInfix ( List.drop_suffix a cs))

theorem revDropRev_isPrefix_self (x : List Char) (p : Char → Bool) :
    (x.reverse.dropWhile p).reverse <+: x := by
  have h : x.reverse.dropWhile p <:+ x.reverse := List.dropWhile_suffix p
  have h2 : (x.reverse.dropWhile p).reverse <+: x.reverse.reverse :=
    List.reverse_prefix.mpr h
  simpa using h2

theorem pyStripL_isInfix_self (l : List Char) : pyStripL l <:+: l := by
  unfold pyStripL
  exact List.IsInfix.trans
    (List.IsPrefix.isInfix (revDropRev_isPrefix_self (l.dropWhile pyIsSpace) pyIsSpace))
    (List.IsSuffix.isInfix (List.dropWhile_suffix pyIsSpace))

theorem fencedCandidate_shape (cs : List Char) (cand : List Char)
    (h : fencedCandidate cs = some cand) : ∃ a b, cand = pyStripL (slice cs a b) := by
  unfold fencedCandidate at h
  split at h
  · exact absurd h (by simp)
  · split at h
    · exact absurd h (by simp)
    · exact ⟨_, _, (Option.some_inj.mp h).symm⟩

theorem stage2From_shape (cs : List Char) (sp : Nat) (oc cc : Char) (s : String)
    (h : stage2From cs sp oc cc = some s) :
    (jsonParse s).isSome = true ∧ ∃ a b, s = String.mk (slice cs a b) := by
  unfold stage2From at h
  split at h
  · exact absurd h (by simp)
  · split at h
    · split at h
      · rename_i hparse
        rw [Option.some_inj] at h
        subst h
        exact ⟨hparse, _, _, rfl⟩
      · exact absurd h (by simp)
    · exact absurd h (by simp)

theorem stage2_shape (cs : List Char) (s : String) (h : stage2 cs = some s) :
    (jsonParse s).isSome = true ∧ ∃ a b, s = String.mk (slice cs a b) := by
  unfold stage2 at h
  split at h
  · exact absurd h (by simp)
  · exact stage2From_shape _ _ _ _ _ h
  · exact stage2From_shape _ _ _ _ _ h
  · split at h
    · exact stage2From_shape _ _ _ _ _ h
    · exact stage2From_shape _ _ _ _ _ h

/-- C10: for every input text, the strategy decoder returns either
`none` or a substring (contiguous infix) of the input that parses as
valid JSON, so the subsequent `json.loads` of a non-`none` result in
`generate_scraping_strategy` always succeeds. -/
theorem decoder_returns_valid_json_substring (text s : String)
    (h : extract_json_from_text text = some s) :
    (jsonParse s).isSome = true ∧ s.toList <:+: text.toList := by
  unfold extract_json_from_text at h
  split at h
  · rename_i cand hcand
    split at h
    · rename_i hparse
      rw [Option.some_inj] at h
      subst h
      refine ⟨hparse, ?_⟩
      obtain ⟨a, b, hab⟩ := fencedCandidate_shape _ _ hcand
      rw [toList_mk, hab]
      exact List.IsInfix.trans (pyStripL_isInfix_self _) (slice_isInfix_self _ _ _)
    · obtain ⟨hp, a, b, hab⟩ := stage2_shape _ _ h
      refine ⟨hp, ?_⟩
      rw [hab, toList_mk]
      exact slice_isInfix_self _ _ _
  · obtain ⟨hp, a, b, hab⟩ := stage2_shape _ _ h
    refine ⟨hp, ?_⟩
    rw [hab, toList_mk]
    exact slice_isInfix_self _ _ _

/-- Witness for C10 at a concrete input. -/
theorem decoder_returns_valid_json_substring_witness :
    (jsonParse "[1]").isSome = true ∧ "[1]".toList <:+: "x [1] y".toList :=
  decoder_returns_valid_json_substring "x [1] y" "[1]" (by rfl)

/-- C2: the stage-2 depth scan ignores bracket characters inside
quoted strings (the in-string flag swallows every character other than
quote and backslash; a backslash sets the escape flag without toggling
the in-string flag; an escaped character is skipped outright), and the
response text containing a brace inside a string value decodes to the
full object rather than a prefix cut at the in-string brace. -/
theorem decoder_depth_scan_in_string (oc cc : Char) :
    (∀ st : ScanSt, ∀ c : Char, st.inString = true → st.escapeNext = false →
      c ≠ '"' → c ≠ '\\' → scanStep oc cc st c = (st, false))
    ∧ (∀ st : ScanSt, st.inString = true → st.escapeNext = false →
      ((scanStep oc cc st '\\').1.inString = true
        ∧ (scanStep oc cc st '\\').1.escapeNext = true))
    ∧ (∀ st : ScanSt, ∀ c : Char, st.escapeNext = true →
      scanStep oc cc st c = ({ st with escapeNext := false }, false))
    ∧ extract_json_from_text "Here: \x7b\"a\":\"t \x7d x\",\"b\":1\x7d"
        = some "\x7b\"a\":\"t \x7d x\",\"b\":1\x7d"
    ∧ jsonParse "\x7b\"a\":\"t \x7d x\",\"b\":1\x7d"
        = some (Json.obj [("a", Json.str "t \x7d x"), ("b", Json.num "1")]) := by
  refine ⟨?_, ?_, ?_, by rfl, by rfl⟩
  · intro st c hin hesc hq hb
    simp [scanStep, hin, hesc, hq, hb]
  · intro st hin hesc
    simp [scanStep, hin, hesc]
  · intro st c hesc
    simp [scanStep, hesc]

/-- Witness for C2: the in-string scan facts applied at a concrete
state and character (an in-string closing brace leaves the scan state
unchanged). -/
theorem decoder_depth_scan_in_string_witness :
    scanStep '\x7b' '\x7d' ⟨1, true, false⟩ '\x7d' = (⟨1, true, false⟩, false) :=
  (decoder_depth_scan_in_string '\x7b' '\x7d').1 ⟨1, true, false⟩ '\x7d' rfl rfl
    (by decide) (by decide)

/-! ## Extraction-engine theorems -/

/-- C5: the extraction engine raises its content-not-found failure if
and only if the main-content branch produced zero records; on success
the PageResult's content is exactly the main-content branch's output,
so empty metadata, absent structured data, and empty image or link
lists never by themselves cause the failure. -/
theorem extract_error_iff_no_content (doc : List Elem) (mat : String → NodeData → Bool)
    (ign : Elem → List String → Bool) (resolve : String → String → String)
    (url : String) (strategy : Strategy) (title : String) :
    ((∃ msg, extract_with_strategy doc mat ign resolve url strategy title = Except.error msg)
      ↔ contentOf doc mat ign strategy = [])
    ∧ (∀ pd, extract_with_strategy doc mat ign resolve url strategy title = Except.ok pd →
        pd.content = contentOf doc mat ign strategy) := by
  unfold extract_with_strategy
  split
  · rename_i h
    rw [List.isEmpty_iff] at h
    refine ⟨⟨fun _ => h, fun _ => ⟨_, rfl⟩⟩, ?_⟩
    intro pd hpd
    exact absurd hpd (by simp)
  · rename_i h
    rw [List.isEmpty_iff] at h
    constructor
    · constructor
      · rintro ⟨msg, hmsg⟩
        exact absurd hmsg (by simp)
      · intro hc
        exact absurd hc h
    · intro pd hpd
      rw [Except.ok.injEq] at hpd
      rw [← hpd]

/-- Witness for C5: a strategy whose items selector matches nothing
on an empty document fails, and on a one-article document the success
carries exactly the fallback-text record. -/
theorem extract_error_iff_no_content_witness :
    (∃ msg, extract_with_strategy ([] : List Elem) tagMat
        (fun x ig => Browser.should_ignore [] tagMat x ig) (fun _ b => b) "u"
        wStratItems "t" = Except.error msg)
    ∧ (wPageData.content = contentOf wDoc2 tagMat
        (fun x ig => Browser.should_ignore wDoc2 tagMat x ig) wStratItems) :=
  ⟨(extract_error_iff_no_content [] tagMat
      (fun x ig => Browser.should_ignore [] tagMat x ig) (fun _ b => b) "u"
      wStratItems "t").1.mpr rfl,
   (extract_error_iff_no_content wDoc2 tagMat
      (fun x ig => Browser.should_ignore wDoc2 tagMat x ig) (fun _ b => b) "u"
      wStratItems "t").2 wPageData rfl⟩

/-- C6: an element with an ancestor (at any nesting depth) matching an
ignore selector is flagged by the should-ignore test of both backends
and is therefore excluded uniformly from content-item selection,
global field-value collection, image extraction, and link
extraction. -/
theorem ignore_ancestor_excluded (doc : List Elem) (mat : String → NodeData → Bool)
    (ignore : List String) (sel : String) (e a : Elem)
    (hsel : sel ∈ ignore) (ha : a ∈ ancestorsOf doc e) (hmat : mat sel a.data = true) :
    Browser.should_ignore doc mat e ignore = true
    ∧ Http.should_ignore doc mat e ignore = true
    ∧ (∀ isel, e ∉ itemElems doc mat (fun x ig => Browser.should_ignore doc mat x ig) isel ignore)
    ∧ (∀ isel, e ∉ itemElems doc mat (fun x ig => Http.should_ignore doc mat x ig) isel ignore)
    ∧ (∀ fsel, e ∉ fieldElems doc mat (fun x ig => Browser.should_ignore doc mat x ig) fsel ignore)
    ∧ (∀ fsel, e ∉ fieldElems doc mat (fun x ig => Http.should_ignore doc mat x ig) fsel ignore)
    ∧ e ∉ imageElems doc (fun x ig => Browser.should_ignore doc mat x ig) ignore
    ∧ e ∉ imageElems doc (fun x ig => Http.should_ignore doc mat x ig) ignore
    ∧ e ∉ linkElems doc (fun x ig => Browser.should_ignore doc mat x ig) ignore
    ∧ e ∉ linkElems doc (fun x ig => Http.should_ignore doc mat x ig) ignore := by
  have hB : Browser.should_ignore doc mat e ignore = true := by
    unfold Browser.should_ignore
    rw [List.any_eq_true]
    refine ⟨sel, hsel, ?_⟩
    rw [Bool.or_eq_true, List.any_eq_true]
    exact Or.inr ⟨a, ha, hmat⟩
  have hH : Http.should_ignore doc mat e ignore = true := by
    unfold Http.should_ignore
    rw [List.any_eq_true]
    refine ⟨sel, hsel, ?_⟩
    rw [List.any_eq_true]
    refine ⟨a, List.mem_cons_of_mem _ ha, ?_⟩
    simp [hmat]
  refine ⟨hB, hH, ?_, ?_, ?_, ?_, ?_, ?_, ?_, ?_⟩
  · intro isel hmem
    rw [itemElems, List.mem_filter] at hmem
    simp [hB] at hmem
  · intro isel hmem
    rw [itemElems, List.mem_filter] at hmem
    simp [hH] at hmem
  · intro fsel hmem
    rw [fieldElems, List.mem_filter] at hmem
    simp [hB] at hmem
  · intro fsel hmem
    rw [fieldElems, List.mem_filter] at hmem
    simp [hH] at hmem
  · intro hmem
    rw [imageElems, List.mem_filter] at hmem
    simp [hB] at hmem
  · intro hmem
    rw [imageElems, List.mem_filter] at hmem
    simp [hH] at hmem
  · intro hmem
    rw [linkElems, List.mem_filter] at hmem
    simp [hB] at hmem
  · intro hmem
    rw [linkElems, List.mem_filter] at hmem
    simp [hH] at hmem

/-- Witness for C6: a leaf nested three levels under an `aside`
matched by the ignore list is excluded everywhere in both backends. -/
theorem ignore_ancestor_excluded_witness :
    Browser.should_ignore wDoc tagMat wLeaf ["aside"] = true
    ∧ Http.should_ignore wDoc tagMat wLeaf ["aside"] = true
    ∧ (∀ isel, wLeaf ∉ itemElems wDoc tagMat
        (fun x ig => Browser.should_ignore wDoc tagMat x ig) isel ["aside"])
    ∧ (∀ isel, wLeaf ∉ itemElems wDoc tagMat
        (fun x ig => Http.should_ignore wDoc tagMat x ig) isel ["aside"])
    ∧ (∀ fsel, wLeaf ∉ fieldElems wDoc tagMat
        (fun x ig => Browser.should_ignore wDoc tagMat x ig) fsel ["aside"])
    ∧ (∀ fsel, wLeaf ∉ fieldElems wDoc tagMat
        (fun x ig => Http.should_ignore wDoc tagMat x ig) fsel ["aside"])
    ∧ wLeaf ∉ imageElems wDoc (fun x ig => Browser.should_ignore wDoc tagMat x ig) ["aside"]
    ∧ wLeaf ∉ imageElems wDoc (fun x ig => Http.should_ignore wDoc tagMat x ig) ["aside"]
    ∧ wLeaf ∉ linkElems wDoc (fun x ig => Browser.should_ignore wDoc tagMat x ig) ["aside"]
    ∧ wLeaf ∉ linkElems wDoc (fun x ig => Http.should_ignore wDoc tagMat x ig) ["aside"] :=
  ignore_ancestor_excluded wDoc tagMat ["aside"] "aside" wLeaf wAside
    (by decide) (by decide) (by decide)

/-! ## Pagination-controller theorems -/

/-- C7: the pagination controller returns an absolute URL only under
the full guard (truthy selector, matched element, visibility in the
browser backend, a truthy non-fragment non-`javascript:` href, same
resolved host), and returns none when the selector is absent, the
element is missing, or (browser backend) the element is invisible. -/
theorem find_next_page_conditions (doc : List Elem) (mat : String → NodeData → Bool)
    (resolve : String → String → String) (host : String → String)
    (current : String) (strategy : Strategy) :
    (∀ u, Browser.find_next_page_with_strategy doc mat resolve host current strategy = some u →
      ∃ sel el href,
        truthyOpt strategy.next_selector = some sel
        ∧ queryOne doc mat sel = some el
        ∧ el.data.visible = true
        ∧ getAttr el.data "href" = some href
        ∧ href ≠ ""
        ∧ pyStartsWith href "#" = false
        ∧ pyStartsWith href "javascript:" = false
        ∧ u = resolve current href
        ∧ host u = host current)
    ∧ (∀ u, Http.find_next_page_with_strategy doc mat resolve host current strategy = some u →
      ∃ sel el,
        truthyOpt strategy.next_selector = some sel
        ∧ queryOne doc mat sel = some el
        ∧ (getAttr el.data "href").getD "" ≠ ""
        ∧ pyStartsWith ((getAttr el.data "href").getD "") "#" = false
        ∧ pyStartsWith ((getAttr el.data "href").getD "") "javascript:" = false
        ∧ u = resolve current ((getAttr el.data "href").getD "")
        ∧ host u = host current)
    ∧ (truthyOpt strategy.next_selector = none →
        Browser.find_next_page_with_strategy doc mat resolve host current strategy = none
        ∧ Http.find_next_page_with_strategy doc mat resolve host current strategy = none)
    ∧ (∀ sel, truthyOpt strategy.next_selector = some sel → queryOne doc mat sel = none →
        Browser.find_next_page_with_strategy doc mat resolve host current strategy = none
        ∧ Http.find_next_page_with_strategy doc mat resolve host current strategy = none)
    ∧ (∀ sel el, truthyOpt strategy.next_selector = some sel →
        queryOne doc mat sel = some el → el.data.visible = false →
        Browser.find_next_page_with_strategy doc mat resolve host current strategy = none) := by
  refine ⟨?_, ?_, ?_, ?_, ?_⟩
  · intro u h
    unfold Browser.find_next_page_with_strategy at h
    split at h
    · exact absurd h (by simp)
    · rename_i sel hsel
      split at h
      · exact absurd h (by simp)
      · rename_i el hel
        split at h
        · rename_i hvis
          split at h
          · exact absurd h (by simp)
          · rename_i href hhref
            split at h
            · rename_i hcond
              split at h
              · rename_i hhost
                rw [Option.some_inj] at h
                subst h
                simp only [Bool.and_eq_true, bne_iff_ne, Bool.not_eq_true'] at hcond
                refine ⟨sel, el, href, hsel, hel, hvis, hhref,
                  hcond.1.1, hcond.1.2, hcond.2, rfl, ?_⟩
                exact eq_of_beq hhost
              · exact absurd h (by simp)
            · exact absurd h (by simp)
        · exact absurd h (by simp)
  · intro u h
    unfold Http.find_next_page_with_strategy at h
    split at h
    · exact absurd h (by simp)
    · rename_i sel hsel
      split at h
      · exact absurd h (by simp)
      · rename_i el hel
        split at h
        · rename_i hcond
          split at h
          · rename_i hhost
            rw [Option.some_inj] at h
            subst h
            simp only [Bool.and_eq_true, bne_iff_ne, Bool.not_eq_true'] at hcond
            refine ⟨sel, el, hsel, hel, hcond.1.1, hcond.1.2, hcond.2, rfl, ?_⟩
            exact eq_of_beq hhost
          · exact absurd h (by simp)
        · exact absurd h (by simp)
  · intro hnone
    constructor
    · unfold Browser.find_next_page_with_strategy
      simp [hnone]
    · unfold Http.find_next_page_with_strategy
      simp [hnone]
  · intro sel hsel hq
    constructor
    · unfold Browser.find_next_page_with_strategy
      simp [hsel, hq]
    · unfold Http.find_next_page_with_strategy
      simp [hsel, hq]
  · intro sel el hsel hq hvis
    unfold Browser.find_next_page_with_strategy
    simp [hsel, hq, hvis]

/-- Witness for C7: with no `next_selector` both backends return
none. -/
theorem find_next_page_conditions_witness :
    Browser.find_next_page_with_strategy ([] : List Elem) tagMat (fun _ b => b)
      (fun _ => "h") "u" wStratItems = none
    ∧ Http.find_next_page_with_strategy ([] : List Elem) tagMat (fun _ b => b)
      (fun _ => "h") "u" wStratItems = none :=
  (find_next_page_conditions [] tagMat (fun _ b => b) (fun _ => "h") "u"
    wStratItems).2.2.1 rfl

/-! ## Round-loop theorems (C3) -/

theorem roundGo_mono (env : Nat → RoundIn) (pageNum : Nat) :
    ∀ f r prev s, 2 ≤ r → prev = s.content.length →
    ∃ u, roundGo env pageNum f r prev (some s) = Except.ok (some u)
      ∧ s.content.length ≤ u.content.length := by
  intro f
  induction f with
  | zero =>
      intro r prev s hr hp
      exact ⟨s, rfl, le_refl _⟩
  | succ f ih =>
      intro r prev s hr hp
      have hr1 : (r == 1) = false := by
        simp only [beq_eq_false_iff_ne, ne_eq]
        omega
      cases hext : (env r).extract with
      | none =>
          refine ⟨s, ?_, le_refl _⟩
          simp [roundGo, hext, hr1]
      | some pd =>
          by_cases hgt : pd.content.length > prev
          · cases hc : ((env r).clicks == 0) with
            | true =>
                refine ⟨{ pd with page_number := pageNum }, ?_, ?_⟩
                · simp [roundGo, hext, hr1, hgt, hc]
                · simp only
                  omega
            | false =>
                obtain ⟨u, hu, hle⟩ :=
                  ih (r + 1) pd.content.length { pd with page_number := pageNum }
                    (by omega) (by simp only)
                refine ⟨u, ?_, ?_⟩
                · simp only [roundGo, hext, hr1, Bool.false_eq_true, ↓reduceIte, hgt, hc]
                  exact hu
                · simp only at hle
                  omega
          · refine ⟨s, ?_, le_refl _⟩
            simp [roundGo, hext, hr1, hgt]

/-- C3: across the extraction rounds of one page the stored
content-record count never decreases: round 1's result is stored
unconditionally (and whatever the loop finally stores is at least as
large), a later round whose count is not strictly greater than the
previous round's count is discarded with the stored PageResult
retained unchanged, and a strictly greater count replaces the stored
PageResult (again never later shrinking). -/
theorem round_count_monotone (env : Nat → RoundIn) (pageNum : Nat) :
    (∀ f pd, (env 1).extract = some pd →
      ∃ u, roundLoop env (f + 1) pageNum = Except.ok (some u)
        ∧ pd.content.length ≤ u.content.length)
    ∧ (∀ f r prev s pd, 2 ≤ r → prev = s.content.length →
        (env r).extract = some pd → pd.content.length ≤ prev →
        roundGo env pageNum (f + 1) r prev (some s) = Except.ok (some s))
    ∧ (∀ f r prev s pd, 2 ≤ r → prev = s.content.length →
        (env r).extract = some pd → prev < pd.content.length →
        ∃ u, roundGo env pageNum (f + 1) r prev (some s) = Except.ok (some u)
          ∧ pd.content.length ≤ u.content.length) := by
  refine ⟨?_, ?_, ?_⟩
  · intro f pd hext
    cases hc : ((env 1).clicks == 0) with
    | true =>
        refine ⟨{ pd with page_number := pageNum }, ?_, ?_⟩
        · simp [roundLoop, roundGo, hext, hc]
        · simp only
          omega
    | false =>
        obtain ⟨u, hu, hle⟩ :=
          roundGo_mono env pageNum f 2 pd.content.length
            { pd with page_number := pageNum } (by omega) (by simp only)
        refine ⟨u, ?_, ?_⟩
        · simp only [roundLoop, roundGo, hext, beq_self_eq_true, ↓reduceIte, hc,
            Bool.false_eq_true]
          exact hu
        · simp only at hle
          omega
  · intro f r prev s pd hr hp hext hle
    have hr1 : (r == 1) = false := by
      simp only [beq_eq_false_iff_ne, ne_eq]
      omega
    have hgt : ¬(pd.content.length > prev) := by omega
    simp [roundGo, hext, hr1, hgt]
  · intro f r prev s pd hr hp hext hgt
    have hr1 : (r == 1) = false := by
      simp only [beq_eq_false_iff_ne, ne_eq]
      omega
    cases hc : ((env r).clicks == 0) with
    | true =>
        refine ⟨{ pd with page_number := pageNum }, ?_, ?_⟩
        · simp [roundGo, hext, hr1, hgt, hc]
        · simp only
          omega
    | false =>
        obtain ⟨u, hu, hle⟩ :=
          roundGo_mono env pageNum f (r + 1) pd.content.length
            { pd with page_number := pageNum } (by omega) (by simp only)
        refine ⟨u, ?_, ?_⟩
        · simp only [roundGo, hext, hr1, Bool.false_eq_true, ↓reduceIte, hgt, hc]
          exact hu
        · simp only at hle
          omega

/-- Witness for C3: with one record in round 1 and an empty round 2,
the loop keeps a result at least as large as round 1's, and the
explicit round-2 step retains the stored PageResult unchanged. -/
theorem round_count_monotone_witness :
    (∃ u, roundLoop wRoundEnv (0 + 1) 7 = Except.ok (some u)
      ∧ wPageData.content.length ≤ u.content.length)
    ∧ roundGo wRoundEnv 7 (0 + 1) 2 1 (some wPageData) = Except.ok (some wPageData) :=
  ⟨(round_count_monotone wRoundEnv 7).1 0 wPageData rfl,
   (round_count_monotone wRoundEnv 7).2.1 0 2 1 wPageData wPageDataEmpty
     (by omega) rfl rfl (by decide)⟩

/-! ## Dynamic-content-loader theorems (C9) -/

theorem clickGo_iters_le (env : Nat → Bool × Bool) :
    ∀ f i tc cc, (clickGo env f i tc cc).2 ≤ i + f := by
  intro f
  induction f with
  | zero => intro i tc cc; simp [clickGo]
  | succ f ih =>
      intro i tc cc
      simp only [clickGo]
      split
      · split
        · simp
        · have := ih (i + 1) tc (cc + 1)
          omega
      · have := ih (i + 1) (if (env i).1 then tc + 1 else tc) 0
        omega

theorem clickGo_iters_ge (env : Nat → Bool × Bool) :
    ∀ f i tc cc, i ≤ (clickGo env f i tc cc).2 := by
  intro f
  induction f with
  | zero => intro i tc cc; simp [clickGo]
  | succ f ih =>
      intro i tc cc
      simp only [clickGo]
      split
      · split
        · simp
        · have := ih (i + 1) tc (cc + 1)
          omega
      · have := ih (i + 1) (if (env i).1 then tc + 1 else tc) 0
        omega

theorem countClicksIn_succ (env : Nat → Bool × Bool) (i n : Nat) :
    countClicksIn env i (n + 1)
      = (if (env i).1 then 1 else 0) + countClicksIn env (i + 1) n := by
  simp only [countClicksIn, List.range'_succ, List.filter]
  cases h : (env i).1 <;> simp [h] <;> omega

theorem clickGo_count (env : Nat → Bool × Bool) :
    ∀ f i tc cc, (clickGo env f i tc cc).1
      = tc + countClicksIn env i ((clickGo env f i tc cc).2 - i) := by
  intro f
  induction f with
  | zero =>
      intro i tc cc
      simp [clickGo, countClicksIn]
  | succ f ih =>
      intro i tc cc
      simp only [clickGo]
      split
      · rename_i hdead
        simp only [Bool.and_eq_true, Bool.not_eq_true'] at hdead
        split
        · simp [countClicksIn, List.range'_succ, hdead.2]
        · have hge := clickGo_iters_ge env f (i + 1) tc (cc + 1)
          have hcount := ih (i + 1) tc (cc + 1)
          have hsub : (clickGo env f (i + 1) tc (cc + 1)).2 - i
              = ((clickGo env f (i + 1) tc (cc + 1)).2 - (i + 1)) + 1 := by omega
          rw [hcount, hsub, countClicksIn_succ, hdead.2]
          simp
      · have hge := clickGo_iters_ge env f (i + 1) (if (env i).1 then tc + 1 else tc) 0
        have hcount := ih (i + 1) (if (env i).1 then tc + 1 else tc) 0
        have hsub : (clickGo env f (i + 1) (if (env i).1 then tc + 1 else tc) 0).2 - i
            = ((clickGo env f (i + 1) (if (env i).1 then tc + 1 else tc) 0).2 - (i + 1)) + 1 := by
          omega
        rw [hcount, hsub, countClicksIn_succ]
        cases h : (env i).1 <;> simp [h] at hcount ⊢ <;> omega

theorem clickGo_alldead (env : Nat → Bool × Bool) (hdead : ∀ j, env j = (false, true)) :
    ∀ f i tc cc, cc ≤ 2 → clickGo env f i tc cc = (tc, i + min (3 - cc) f) := by
  intro f
  induction f with
  | zero =>
      intro i tc cc hcc
      simp [clickGo]
  | succ f ih =>
      intro i tc cc hcc
      have hi : env i = (false, true) := hdead i
      by_cases h3 : cc + 1 ≥ 3
      · have hcc2 : cc = 2 := by omega
        subst hcc2
        simp [clickGo, hi, Prod.ext_iff]
      · have hcc1 : cc + 1 ≤ 2 := by omega
        simp only [clickGo, hi]
        rw [if_pos (by simp), if_neg h3, ih (i + 1) tc (cc + 1) hcc1]
        have harith : i + 1 + min (3 - (cc + 1)) f = i + min (3 - cc) (f + 1) := by omega
        rw [harith]

theorem clickGo_earlystop (env : Nat → Bool × Bool) :
    ∀ f i tc cc, cc ≤ 2 → cc ≤ i → (∀ k, k < cc → deadIter env (i - 1 - k)) →
    (clickGo env f i tc cc).2 < i + f →
    deadIter env ((clickGo env f i tc cc).2 - 1)
    ∧ deadIter env ((clickGo env f i tc cc).2 - 2)
    ∧ deadIter env ((clickGo env f i tc cc).2 - 3)
    ∧ 3 ≤ (clickGo env f i tc cc).2 := by
  intro f
  induction f with
  | zero =>
      intro i tc cc hcc hci hk hlt
      simp [clickGo] at hlt
  | succ f ih =>
      intro i tc cc hcc hci hk hlt
      by_cases hdead : ((env i).2 && !(env i).1) = true
      · have hdead2 := hdead
        simp only [Bool.and_eq_true, Bool.not_eq_true'] at hdead2
        have hdi : deadIter env i := by
          unfold deadIter
          cases henv : env i with
          | mk a b =>
              have h1 := hdead2.1
              have h2 := hdead2.2
              rw [henv] at h1 h2
              simp only at h1 h2
              rw [h1, h2]
        by_cases h3 : cc + 1 ≥ 3
        · have hcc2 : cc = 2 := by omega
          subst hcc2
          simp only [clickGo, if_pos hdead, if_pos h3] at hlt ⊢
          refine ⟨?_, ?_, ?_, by simp; omega⟩
          · simpa using hdi
          · have := hk 0 (by omega)
            simpa using this
          · have := hk 1 (by omega)
            have heq : (tc, i + 1).2 - 3 = i - 1 - 1 := by simp; omega
            rw [heq]
            exact this
        · simp only [clickGo, if_pos hdead, if_neg h3] at hlt ⊢
          refine ih (i + 1) tc (cc + 1) (by omega) (by omega) ?_ (by omega)
          intro k hkcc
          cases k with
          | zero => simpa using hdi
          | succ k =>
              have := hk k (by omega)
              have heq : i + 1 - 1 - (k + 1) = i - 1 - k := by omega
              rw [heq]
              exact this
      · simp only [clickGo, if_neg hdead] at hlt ⊢
        refine ih (i + 1) (if (env i).1 then tc + 1 else tc) 0 (by omega) (by omega) ?_ (by omega)
        intro k hkcc
        omega

/-- C9: the dynamic content loader always terminates within the
iteration cap and returns the count of successful clicks among the
executed iterations; when every iteration is dead (no click, no
height change) it stops after `min 3 cap` iterations, and it stops
before exhausting the cap only when the last three executed
iterations were all dead — so any click or height change resets the
consecutive-no-progress counter. -/
theorem click_loader_bounded (env : Nat → Bool × Bool) (max_clicks : Nat) :
    (click_load_more_buttons env max_clicks).2 ≤ max_clicks
    ∧ (click_load_more_buttons env max_clicks).1
        = countClicksIn env 0 (click_load_more_buttons env max_clicks).2
    ∧ ((∀ j, env j = (false, true)) →
        (click_load_more_buttons env max_clicks).2 = min 3 max_clicks)
    ∧ ((click_load_more_buttons env max_clicks).2 < max_clicks →
        deadIter env ((click_load_more_buttons env max_clicks).2 - 1)
        ∧ deadIter env ((click_load_more_buttons env max_clicks).2 - 2)
        ∧ deadIter env ((click_load_more_buttons env max_clicks).2 - 3)
        ∧ 3 ≤ (click_load_more_buttons env max_clicks).2) := by
  refine ⟨?_, ?_, ?_, ?_⟩
  · have := clickGo_iters_le env max_clicks 0 0 0
    simpa [click_load_more_buttons] using this
  · have := clickGo_count env max_clicks 0 0 0
    simpa [click_load_more_buttons] using this
  · intro hdead
    have := clickGo_alldead env hdead max_clicks 0 0 0 (by omega)
    simp only [click_load_more_buttons, this]
    omega
  · intro hlt
    have := clickGo_earlystop env max_clicks 0 0 0 (by omega) (by omega)
      (by intro k hk; omega)
      (by simpa [click_load_more_buttons] using hlt)
    simpa [click_load_more_buttons] using this

/-- Witness for C9: on a page where nothing ever clicks or grows, the
loader with the source's cap of 10 stops after exactly 3 iterations,
all of them dead. -/
theorem click_loader_bounded_witness :
    (click_load_more_buttons wDeadEnv 10).2 = min 3 10
    ∧ (deadIter wDeadEnv ((click_load_more_buttons wDeadEnv 10).2 - 1)
      ∧ deadIter wDeadEnv ((click_load_more_buttons wDeadEnv 10).2 - 2)
      ∧ deadIter wDeadEnv ((click_load_more_buttons wDeadEnv 10).2 - 3)
      ∧ 3 ≤ (click_load_more_buttons wDeadEnv 10).2) :=
  ⟨(click_loader_bounded wDeadEnv 10).2.2.1 (fun _ => rfl),
   (click_loader_bounded wDeadEnv 10).2.2.2 (by decide)⟩

/-! ## Visited-set theorems (C4) -/

theorem pageGo_dup (env : CrawlEnv) (fuel : Nat) (u : String) (pn : Nat)
    (visited : List String) (acc : List PageData)
    (h : normalizeUrl u ∈ visited) :
    pageGo env fuel (some u) pn visited acc = Except.ok (acc, visited) := by
  cases fuel with
  | zero => rfl
  | succ f =>
      cases ht : env.timeOk pn <;> simp [pageGo, ht, h]

theorem httpGo_dup (env : HttpEnv) (fuel : Nat) (u : String) (pn : Nat)
    (visited : List String) (acc : List PageData)
    (h : normalizeUrl u ∈ visited) :
    httpGo env fuel (some u) pn visited acc = Except.ok (acc, visited) := by
  cases fuel with
  | zero => rfl
  | succ f =>
      cases ht : env.timeOk pn <;> simp [httpGo, ht, h]

theorem nodup_append_norm (visited : List String) (x : String)
    (hnd : visited.Nodup) (hx : x ∉ visited) : (visited ++ [x]).Nodup := by
  simp [List.nodup_append, hnd, hx]

theorem pageGo_nodup (env : CrawlEnv) :
    ∀ fuel o pn visited acc res, visited.Nodup →
      pageGo env fuel o pn visited acc = Except.ok res → res.2.Nodup := by
  intro fuel
  induction fuel with
  | zero =>
      intro o pn visited acc res hnd h
      cases o with
      | none => cases h; exact hnd
      | some u => cases h; exact hnd
  | succ f ih =>
      intro o pn visited acc res hnd h
      cases o with
      | none => cases h; exact hnd
      | some u =>
          simp only [pageGo] at h
          split at h
          · cases h; exact hnd
          · split at h
            · cases h; exact hnd
            · rename_i hcontains
              have hx : normalizeUrl u ∉ visited := fun hm =>
                hcontains (List.elem_eq_true_of_mem hm)
              have hnd' := nodup_append_norm visited (normalizeUrl u) hnd hx
              split at h
              · cases h
              · split at h
                · cases h
                · split at h
                  · split at h
                    · exact ih _ _ _ _ _ hnd' h
                    · cases h; exact hnd'
                  · cases h; exact hnd'

theorem httpGo_nodup (env : HttpEnv) :
    ∀ fuel o pn visited acc res, visited.Nodup →
      httpGo env fuel o pn visited acc = Except.ok res → res.2.Nodup := by
  intro fuel
  induction fuel with
  | zero =>
      intro o pn visited acc res hnd h
      cases o with
      | none => cases h; exact hnd
      | some u => cases h; exact hnd
  | succ f ih =>
      intro o pn visited acc res hnd h
      cases o with
      | none => cases h; exact hnd
      | some u =>
          simp only [httpGo] at h
          split at h
          · cases h; exact hnd
          · split at h
            · cases h; exact hnd
            · rename_i hcontains
              have hx : normalizeUrl u ∉ visited := fun hm =>
                hcontains (List.elem_eq_true_of_mem hm)
              have hnd' := nodup_append_norm visited (normalizeUrl u) hnd hx
              split at h
              · split at h
                · cases h
                · cases h; exact hnd'
              · split at h
                · cases h
                · split at h
                  · split at h
                    · cases h
                    · cases h; exact hnd'
                  · split at h
                    · split at h
                      · exact ih _ _ _ _ _ hnd' h
                      · cases h; exact hnd'
                    · cases h; exact hnd'

/-- C4: URL normalization drops the query string, the fragment and
trailing slashes (the two spec examples normalize identically); in
both page loops a candidate URL whose normalization is already in the
visited set ends pagination immediately with the state unchanged, and
consequently the visited set only ever holds pairwise-distinct
normalizations. -/
theorem url_normalization_dedup :
    normalizeUrl "https://x.test/a?p=1#f" = "https://x.test/a"
    ∧ normalizeUrl "https://x.test/a/" = "https://x.test/a"
    ∧ (∀ env fuel u pn visited acc, normalizeUrl u ∈ visited →
        pageGo env fuel (some u) pn visited acc = Except.ok (acc, visited))
    ∧ (∀ env fuel u pn visited acc, normalizeUrl u ∈ visited →
        httpGo env fuel (some u) pn visited acc = Except.ok (acc, visited))
    ∧ (∀ env fuel o pn visited acc res, visited.Nodup →
        pageGo env fuel o pn visited acc = Except.ok res → res.2.Nodup)
    ∧ (∀ env fuel o pn visited acc res, visited.Nodup →
        httpGo env fuel o pn visited acc = Except.ok res → res.2.Nodup) :=
  ⟨rfl, rfl,
   fun env fuel u pn visited acc h => pageGo_dup env fuel u pn visited acc h,
   fun env fuel u pn visited acc h => httpGo_dup env fuel u pn visited acc h,
   fun env fuel o pn visited acc res hnd h => pageGo_nodup env fuel o pn visited acc res hnd h,
   fun env fuel o pn visited acc res hnd h => httpGo_nodup env fuel o pn visited acc res hnd h⟩

/-- Witness for C4: after visiting `https://x.test/a?p=1#f` (stored
normalized), the candidate `https://x.test/a/` is recognised as a
repeat and pagination ends. -/
theorem url_normalization_dedup_witness :
    pageGo wCrawlEnvTrivial 5 (some "https://x.test/a/") 1 ["https://x.test/a"] []
      = Except.ok ([], ["https://x.test/a"]) :=
  url_normalization_dedup.2.2.1 wCrawlEnvTrivial 5 "https://x.test/a/" 1
    ["https://x.test/a"] [] (by decide)

/-! ## Output-shaping theorem (C8) -/

/-- C8: exactly one collected PageResult is emitted directly with the
completion timestamp; more than one is wrapped in the envelope whose
`total_pages` equals the number of collected PageResults. -/
theorem output_shaping (pages : List PageData) (url ts : String) :
    (pages.length = 1 → ∃ p, pages = [p]
      ∧ buildResult pages url ts = CrawlResult.single p ts)
    ∧ (1 < pages.length →
        buildResult pages url ts
          = CrawlResult.multi url ((pages.head?.map (fun p => p.title)).getD "")
              pages.length pages ts) := by
  cases pages with
  | nil =>
      refine ⟨fun h => by simp at h, fun h => by simp at h⟩
  | cons p rest =>
      cases rest with
      | nil => exact ⟨fun _ => ⟨p, rfl, rfl⟩, fun h => by simp at h⟩
      | cons q rest2 =>
          refine ⟨fun h => by simp at h, fun _ => rfl⟩

/-- Witness for C8: one page is emitted directly, two pages produce
the envelope with `total_pages = 2`. -/
theorem output_shaping_witness :
    (∃ p, [wPageData] = [p]
      ∧ buildResult [wPageData] "u" "ts" = CrawlResult.single p "ts")
    ∧ buildResult [wPageData, wPageDataEmpty] "u" "ts"
        = CrawlResult.multi "u"
            (([wPageData, wPageDataEmpty].head?.map (fun p => p.title)).getD "")
            [wPageData, wPageDataEmpty].length [wPageData, wPageDataEmpty] "ts" :=
  ⟨(output_shaping [wPageData] "u" "ts").1 rfl,
   (output_shaping [wPageData, wPageDataEmpty] "u" "ts").2 (by simp)⟩

/-! ## Extraction-failure fatality (C1) -/

/-- C1 (amended): in the browser backend a zero-content extraction is
fatal on round 1 of every page — not only page 1 — aborting the whole
crawl (no JSON, earlier pages discarded), while a zero-content
extraction on a round ≥ 2 abandons the round gracefully keeping the
stored result; in the HTTP backend it is fatal only on page 1, and on
a later page it ends pagination gracefully keeping the earlier
pages for the JSON output. -/
theorem extraction_failure_fatality (env : CrawlEnv) (henv : HttpEnv) :
    (∀ f u pn visited acc, env.timeOk pn = true →
        visited.contains (normalizeUrl u) = false →
        env.strategyOk = true →
        (env.rounds (pn + 1) 1).extract = none →
        1 ≤ env.roundFuel (pn + 1) →
        pageGo env (f + 1) (some u) pn visited acc = Except.error ())
    ∧ (∀ (renv : Nat → RoundIn) pageNum f r prev s, 2 ≤ r →
        (renv r).extract = none →
        roundGo renv pageNum (f + 1) r prev (some s) = Except.ok (some s))
    ∧ (∀ f u visited acc, henv.timeOk 0 = true →
        visited.contains (normalizeUrl u) = false →
        henv.fetchOk 1 = true → henv.strategyOk = true →
        henv.extract 1 = none →
        httpGo henv (f + 1) (some u) 0 visited acc = Except.error ())
    ∧ (∀ f u pn visited acc, 1 ≤ pn → henv.timeOk pn = true →
        visited.contains (normalizeUrl u) = false →
        henv.fetchOk (pn + 1) = true →
        henv.extract (pn + 1) = none →
        httpGo henv (f + 1) (some u) pn visited acc
          = Except.ok (acc, visited ++ [normalizeUrl u])) := by
  refine ⟨?_, ?_, ?_, ?_⟩
  · intro f u pn visited acc ht hc hs hext hfuel
    have hx : normalizeUrl u ∉ visited := by simpa using hc
    have hfatal : roundLoop (env.rounds (pn + 1)) (env.roundFuel (pn + 1)) (pn + 1)
        = Except.error () := by
      cases hrf : env.roundFuel (pn + 1) with
      | zero => omega
      | succ g => simp [roundLoop, roundGo, hext]
    simp [pageGo, ht, hx, hs, hfatal]
  · intro renv pageNum f r prev s hr hext
    have hr1 : (r == 1) = false := by
      simp only [beq_eq_false_iff_ne, ne_eq]
      omega
    simp [roundGo, hext, hr1]
  · intro f u visited acc ht hc hf hs hext
    have hx : normalizeUrl u ∉ visited := by simpa using hc
    simp [httpGo, ht, hx, hf, hs, hext]
  · intro f u pn visited acc hpn ht hc hf hext
    have hx : normalizeUrl u ∉ visited := by simpa using hc
    have hp1 : (pn + 1 == 1) = false := by
      simp only [beq_eq_false_iff_ne, ne_eq]
      omega
    simp [httpGo, ht, hx, hf, hext, hp1]

/-- Witness for C1 (amended), exercising all four conjuncts on the
concrete two-page scenario. -/
theorem extraction_failure_fatality_witness :
    pageGo cBrowserEnv (3 + 1) (some "https://x.test/b") 1 ["https://x.test/a"]
      [wPageData] = Except.error ()
    ∧ roundGo (cBrowserEnv.rounds 2) 9 (0 + 1) 2 0 (some wPageData)
        = Except.ok (some wPageData)
    ∧ httpGo cHttpEnvFail (3 + 1) (some "https://x.test/a") 0 [] [] = Except.error ()
    ∧ httpGo cHttpEnv (3 + 1) (some "https://x.test/b") 1 ["https://x.test/a"]
        [wPageData]
        = Except.ok ([wPageData], ["https://x.test/a"]
            ++ [normalizeUrl "https://x.test/b"]) :=
  ⟨(extraction_failure_fatality cBrowserEnv cHttpEnv).1 3 "https://x.test/b" 1
      ["https://x.test/a"] [wPageData] rfl (by decide) rfl rfl (by decide),
   (extraction_failure_fatality cBrowserEnv cHttpEnv).2.1 (cBrowserEnv.rounds 2) 9 0 2 0
      wPageData (by omega) rfl,
   (extraction_failure_fatality cBrowserEnv cHttpEnvFail).2.2.1 3 "https://x.test/a" [] []
      rfl (by decide) rfl rfl rfl,
   (extraction_failure_fatality cBrowserEnv cHttpEnv).2.2.2 3 "https://x.test/b" 1
      ["https://x.test/a"] [wPageData] (by omega) rfl (by decide) rfl rfl⟩

/-- C1 counterexample: in the browser backend, a crawl whose page 1
succeeds (one record) and whose page 2 extraction finds zero content
records aborts the whole crawl with the error path (non-zero exit, no
JSON written, page 1's results lost), instead of ending pagination
gracefully with page 1's results written. -/
theorem extraction_page2_fatal_counterexample :
    (cBrowserEnv.rounds 1 1).extract = some wPageData
    ∧ (cBrowserEnv.rounds 2 1).extract = none
    ∧ browserCrawl cBrowserEnv "https://x.test/a" = Except.error () :=
  ⟨rfl, rfl, rfl⟩

end Scrape
